import Mathlib

/-!
Verification of the appsfirecat gateway core: resolution, decryption and
path/manifest logic, shallowly embedded from the TypeScript sources
(`packages/host-protocol/src/resolve.ts`, `packages/public-static/src/handler.ts`,
the protocol-dispatch handler iteration, and the header utilities).

Stored records are dynamically typed JSON-like values; they are embedded as the
inductive `Value`.  The backing store is a partial map from URI strings to
values.  Async reads become pure lookups; thrown exceptions become `Except`.

String manipulation is done through small character-list helpers (rather than
the runtime-oriented core `String` API) so that every definition evaluates by
kernel reduction on concrete inputs.
-/

set_option maxRecDepth 100000

namespace Firecat

/-! ## String helpers (JS string primitives on character lists) -/

/-- JS `s.startsWith(pre)`. -/
def strStartsWith (s pre : String) : Bool :=
  pre.toList.isPrefixOf s.toList

/-- JS `s.endsWith(sfx)`. -/
def strEndsWith (s sfx : String) : Bool :=
  sfx.toList.isSuffixOf s.toList

/-- JS `s.slice(n)` (drop the first `n` characters). -/
def strDrop (s : String) (n : Nat) : String :=
  ⟨s.toList.drop n⟩

/-- Drop the last `n` characters. -/
def strDropRight (s : String) (n : Nat) : String :=
  ⟨s.toList.take (s.toList.length - n)⟩

/-- JS `s.split(c)` for a single-character separator: never empty, keeps
empty fragments (`"".split("/") = [""]`, `"a/".split("/") = ["a", ""]`). -/
def splitOnCharAux (c : Char) : List Char → List Char → List String
  | [], acc => [⟨acc.reverse⟩]
  | d :: rest, acc =>
    if d == c then ⟨acc.reverse⟩ :: splitOnCharAux c rest []
    else splitOnCharAux c rest (d :: acc)

/-- JS `s.split(c)` for a single-character separator. -/
def splitOnChar (s : String) (c : Char) : List String :=
  splitOnCharAux c s.toList []

/-- JS `array.pop() ?? ""` after a split: the last fragment. -/
def lastFragment (parts : List String) : String :=
  (parts.getLast?).getD ""

/-- JS `s.toLowerCase()` (ASCII, as used by the sources). -/
def toLowerStr (s : String) : String :=
  ⟨s.toList.map Char.toLower⟩

/-! ## Dynamic values and envelope unwrapping -/

/-- A JSON-ish dynamic value as handled by the JS runtime: `null`, `undefined`,
booleans, numbers (modelled as integers; no claim depends on float semantics),
strings, byte arrays (`Uint8Array`) and objects (ordered key/value fields). -/
inductive Value where
  | vnull : Value
  | vundefined : Value
  | vbool (b : Bool) : Value
  | vnum (n : Int) : Value
  | vstr (s : String) : Value
  | vbytes (bs : List Nat) : Value
  | vobj (fields : List (String × Value)) : Value

/-- JS truthiness of a `Value` (objects and byte arrays are always truthy). -/
def truthy : Value → Bool
  | .vnull => false
  | .vundefined => false
  | .vbool b => b
  | .vnum n => n != 0
  | .vstr s => s != ""
  | .vbytes _ => true
  | .vobj _ => true

/-- First binding of a key in an object's field list (JS objects have unique
keys; JSON parsing keeps the last duplicate, so concrete stores use unique keys). -/
def lookupField (fields : List (String × Value)) (key : String) : Option Value :=
  match fields with
  | [] => none
  | (k, v) :: rest => if k == key then some v else lookupField rest key

/-- Source `unwrapData` from `resolve.ts` / `handler.ts`:
`if (data && typeof data === "object" && "payload" in data) return data.payload; return data;`
Duck-typed, single-level envelope unwrapping: a non-null object with a
`payload` key yields that field's value, anything else is returned unchanged. -/
def unwrapData (data : Value) : Value :=
  match data with
  | .vobj fields =>
    match lookupField fields "payload" with
    | some p => p
    | none => .vobj fields
  | v => v

/-- JS property access `v.key`: the field's value on objects, `undefined` when
the key is missing or the value is not an object. -/
def vget (v : Value) (key : String) : Value :=
  match v with
  | .vobj fields => (lookupField fields key).getD Value.vundefined
  | _ => .vundefined

/-- JS string coercion as performed by template literals. -/
def jsToString : Value → String
  | .vnull => "null"
  | .vundefined => "undefined"
  | .vbool b => if b then "true" else "false"
  | .vnum n => toString n
  | .vstr s => s
  | .vbytes bs => String.intercalate "," (bs.map toString)
  | .vobj _ => "[object Object]"

/-- The backing store (B3nd): a partial map from URI strings to stored data.
`none` models a failed read or a missing record (`!result.success ||
!result.record`); a present-but-falsy data value is rejected separately by the
call sites' truthiness checks, exactly as in the source. -/
def Store : Type := String → Option Value

/-! ## Data model (`packages/host-protocol/src/types.ts`) -/

/-- Entry for a single file in the build. -/
structure FileEntry where
  size : Nat
  contentType : String
  hash : Option String := none
  encrypted : Option Bool := none
  gzipped : Option Bool := none
deriving DecidableEq, Repr

/-- Routing configuration for SPAs and custom routing. -/
structure RoutingConfig where
  spa : Option Bool := none
  entrypoint : Option String := none
  redirects : Option (List (String × String)) := none
  rewrites : Option (List (String × String)) := none
deriving DecidableEq, Repr

/-- Encryption configuration for the build. -/
structure EncryptionConfig where
  enabled : Bool
  keys : Option (List (String × String)) := none
  wrappedKey : Option String := none
  hostPubkey : Option String := none
deriving DecidableEq, Repr

/-- Cache header configuration (`default` headers plus glob-pattern headers). -/
structure HeadersConfig where
  dflt : Option (List (String × String)) := none
  patterns : Option (List (String × List (String × String))) := none
deriving DecidableEq, Repr

/-- Build manifest - the source of truth for a build. -/
structure Manifest where
  manifestVersion : String := "1"
  buildHash : String
  version : Option String := none
  createdAt : Int := 0
  createdBy : Option String := none
  files : List (String × FileEntry)
  routing : Option RoutingConfig := none
  encryption : Option EncryptionConfig := none
  headers : Option HeadersConfig := none
deriving DecidableEq, Repr

/-- Result of resolving a path within a build.  The source sets `fallback: true`
on SPA substitutions and omits the field otherwise, hence `Option Bool`. -/
structure ResolvedPath where
  filePath : String
  file : FileEntry
  fallback : Option Bool := none
deriving DecidableEq, Repr

/-- Request to serve content from a host. -/
structure HostRequest where
  appPubkey : String
  path : String
  buildHash : Option String := none
deriving DecidableEq, Repr

/-- Resolved build target.  `buildHash` and `version` are copied from the
dynamically-typed target pointer, so they stay `Value`s in the embedding. -/
structure BuildTarget where
  appPubkey : String
  buildHash : Value
  baseUri : String
  version : Value

/-- Context for decryption operations. -/
structure DecryptContext where
  hostPrivateKey : String
  hostPubkey : String
  manifest : Manifest

/-- Error codes of `ResolveError` in `resolve.ts`. -/
inductive ResolveCode where
  | NO_TARGET | NO_MANIFEST | NOT_FOUND | INVALID_APP
deriving DecidableEq, Repr

/-- Source `ResolveError` carries a message and a code. -/
structure ResolveError where
  message : String
  code : ResolveCode
deriving DecidableEq, Repr

/-! ## Target resolution (`resolve.ts`, pattern-aware iteration) -/

/-- URI pattern configuration: `"accounts"` (requires auth) or `"open"`. -/
inductive UriPattern where
  | accounts | openPat
deriving DecidableEq, Repr

/-- Source `buildBaseUri`: base URI for a build. -/
def buildBaseUri (appPubkey buildHash : String) (pattern : UriPattern) : String :=
  match pattern with
  | .openPat => "immutable://open/apps/" ++ appPubkey ++ "/builds/" ++ buildHash
  | .accounts => "immutable://accounts/" ++ appPubkey ++ "/builds/" ++ buildHash

/-- Source `targetUri`: location of the mutable target pointer for an app. -/
def targetUri (appPubkey : String) (pattern : UriPattern) : String :=
  match pattern with
  | .openPat => "mutable://open/apps/" ++ appPubkey ++ "/target"
  | .accounts => "mutable://accounts/" ++ appPubkey ++ "/target"

/-- JS truthiness of an optional string (`undefined` and `""` are falsy). -/
def truthyOptStr : Option String → Bool
  | some s => s != ""
  | none => false

/-- Source `resolveTarget` from `resolve.ts`: a truthy explicit `buildHash` (preview
mode) constructs the target directly; otherwise the mutable target pointer is
read, its envelope unwrapped with `unwrapData`, and a missing or falsy record
is the `NO_TARGET` error. -/
def resolveTarget (store : Store) (request : HostRequest) (pattern : UriPattern) :
    Except ResolveError BuildTarget :=
  if truthyOptStr request.buildHash then
    let bh := request.buildHash.getD ""
    .ok { appPubkey := request.appPubkey
          buildHash := .vstr bh
          baseUri := buildBaseUri request.appPubkey bh pattern
          version := .vundefined }
  else
    match store (targetUri request.appPubkey pattern) with
    | none => .error ⟨"No target found for app " ++ request.appPubkey, .NO_TARGET⟩
    | some data =>
      if truthy data then
        let target := unwrapData data
        .ok { appPubkey := request.appPubkey
              buildHash := vget target "buildHash"
              baseUri := buildBaseUri request.appPubkey (jsToString (vget target "buildHash")) pattern
              version := vget target "version" }
      else .error ⟨"No target found for app " ++ request.appPubkey, .NO_TARGET⟩

/-! ## Path resolution (`resolvePath` in `resolve.ts`) -/

/-- Path normalization step of `resolvePath`: strip one leading `/`; an empty
path becomes `manifest.routing?.entrypoint ?? "index.html"`. -/
def normalizePath (path : String) (manifest : Manifest) : String :=
  let normalizedPath := if strStartsWith path "/" then strDrop path 1 else path
  if normalizedPath == "" then
    (manifest.routing.bind RoutingConfig.entrypoint).getD "index.html"
  else normalizedPath

/-- Directory-index candidate of `resolvePath`: append `index.html`, inserting
a `/` only when the path does not already end in one. -/
def directoryIndexPath (normalizedPath : String) : String :=
  if strEndsWith normalizedPath "/" then normalizedPath ++ "index.html"
  else normalizedPath ++ "/index.html"

/-- Source `manifest.routing?.spa` truthiness. -/
def spaEnabled (manifest : Manifest) : Bool :=
  ((manifest.routing.bind RoutingConfig.spa).getD false)

/-- Source `manifest.routing?.entrypoint ?? "index.html"`. -/
def manifestEntrypoint (manifest : Manifest) : String :=
  (manifest.routing.bind RoutingConfig.entrypoint).getD "index.html"

/-- Source `resolvePath` from `resolve.ts`: exact match, then directory index, then
SPA fallback (only when the entrypoint file exists), otherwise `NOT_FOUND`. -/
def resolvePath (path : String) (manifest : Manifest) :
    Except ResolveError ResolvedPath :=
  let normalizedPath := normalizePath path manifest
  match manifest.files.lookup normalizedPath with
  | some file => .ok { filePath := normalizedPath, file := file }
  | none =>
    let indexPath := directoryIndexPath normalizedPath
    match manifest.files.lookup indexPath with
    | some file => .ok { filePath := indexPath, file := file }
    | none =>
      if spaEnabled manifest then
        let entrypoint := manifestEntrypoint manifest
        match manifest.files.lookup entrypoint with
        | some file => .ok { filePath := entrypoint, file := file, fallback := some true }
        | none => .error ⟨"File not found: " ++ path, .NOT_FOUND⟩
      else .error ⟨"File not found: " ++ path, .NOT_FOUND⟩

/-- Source `fileUri`: full URI of a file inside a build. -/
def fileUri (target : BuildTarget) (filePath : String) : String :=
  target.baseUri ++ "/" ++ filePath

/-! ## Crypto layer (`resolve.ts` decryption utilities)

The WebCrypto primitives (`X25519 deriveBits`, `HKDF-SHA256 deriveKey`,
`AES-GCM decrypt`) are external library calls; the embedding abstracts them as
a bundle of pure functions over byte lists, so every theorem below holds for
any implementation of the primitives.  A decryption primitive returns `none`
where `crypto.subtle.decrypt` would reject (failed integrity check). -/

structure CryptoPrims where
  x25519 : List Nat → List Nat → List Nat
  hkdfSha256 : List Nat → List Nat → List Nat → List Nat
  aesGcmDecrypt : List Nat → List Nat → List Nat → Option (List Nat)

/-- Error codes of `DecryptError` in `resolve.ts`. -/
inductive DecryptCode where
  | INVALID_KEY | INVALID_CONTENT | DECRYPT_FAILED | NO_KEY_FOR_HOST
deriving DecidableEq, Repr

/-- A failure escaping the decryption layer: either a thrown `DecryptError`
(message and code), or a raw WebCrypto rejection (`decryptAesGcm` inside
`unwrapContentKey` is not wrapped in a try/catch). -/
inductive DecryptFailure where
  | decryptError (message : String) (code : DecryptCode)
  | operationError
deriving DecidableEq, Repr

/-- Source `isEncrypted`: `manifest.encryption?.enabled === true`. -/
def isEncrypted (manifest : Manifest) : Bool :=
  (manifest.encryption.map EncryptionConfig.enabled).getD false

/-- Source `parseInt(two-char hex, 16)` semantics: a leading non-digit gives `NaN`
(stored as byte `0`); a trailing bad digit is ignored. -/
def hexDigit (c : Char) : Option Nat :=
  if '0' ≤ c ∧ c ≤ '9' then some (c.toNat - '0'.toNat)
  else if 'a' ≤ c ∧ c ≤ 'f' then some (c.toNat - 'a'.toNat + 10)
  else if 'A' ≤ c ∧ c ≤ 'F' then some (c.toNat - 'A'.toNat + 10)
  else none

/-- One byte from a two-character hex chunk, with `parseInt` fallback rules. -/
def byteOfHexPair (c1 c2 : Char) : Nat :=
  match hexDigit c1 with
  | none => 0
  | some d1 =>
    match hexDigit c2 with
    | none => d1
    | some d2 => 16 * d1 + d2

/-- Source `hexToBytes` from `resolve.ts`, on the character list.  The source indexes
`hex.substr(i*2, 2)` over `hex.length / 2` bytes; an odd-length input throws a
`RangeError` before the loop, so the embedding is only ever applied to
even-length strings (a dangling character is never reached by the theorems). -/
def hexToBytesAux : List Char → List Nat
  | c1 :: c2 :: rest => byteOfHexPair c1 c2 :: hexToBytesAux rest
  | _ => []

/-- Source `hexToBytes`: convert a hex string to bytes. -/
def hexToBytes (hex : String) : List Nat :=
  hexToBytesAux hex.toList

/-- One lowercase hex digit character. -/
def hexDigitChar (n : Nat) : Char :=
  if n < 10 then Char.ofNat ('0'.toNat + n) else Char.ofNat ('a'.toNat + n - 10)

/-- Source `bytesToHex`: each byte as two lowercase hex digits
(`b.toString(16).padStart(2, "0")` for byte values). -/
def bytesToHex (bytes : List Nat) : String :=
  ⟨(bytes.map (fun b => [hexDigitChar (b / 16 % 16), hexDigitChar (b % 16)])).flatten⟩

/-- The fixed protocol-wide HKDF salt: 32 zero bytes (`new Uint8Array(32)`). -/
def protocolHkdfSalt : List Nat := List.replicate 32 0

/-- The fixed protocol-wide HKDF info constant: the UTF-8 bytes of
`"appsfirecat-content-key"` (pure ASCII, so code points coincide with bytes). -/
def protocolHkdfInfo : List Nat :=
  "appsfirecat-content-key".toList.map Char.toNat

/-- Source `deriveAesKey`: HKDF-SHA256 with the fixed protocol salt and info constant,
yielding the AES-256-GCM key for unwrapping. -/
def deriveAesKey (prims : CryptoPrims) (sharedSecret : List Nat) : List Nat :=
  prims.hkdfSha256 protocolHkdfSalt protocolHkdfInfo sharedSecret

/-- Source `Uint8Array.slice(b, e)` on byte lists. -/
def sliceBytes (bs : List Nat) (b e : Nat) : List Nat :=
  (bs.take e).drop b

/-- Source `Uint8Array.slice(b)` on byte lists. -/
def sliceBytesFrom (bs : List Nat) (b : Nat) : List Nat :=
  bs.drop b

/-- Source `unwrapContentKey` from `resolve.ts`: parse the wrapped key as
`ephemeralPubkey(0..32) ‖ nonce(32..44) ‖ ciphertext(44..)`, reject anything
shorter than 44 bytes with `INVALID_KEY`, run X25519 against the host private
key, derive the AES key via `deriveAesKey`, and AES-GCM-decrypt the ciphertext
to recover the raw content key (a WebCrypto rejection propagates unwrapped). -/
def unwrapContentKey (prims : CryptoPrims) (wrappedKeyHex hostPrivateKeyHex : String) :
    Except DecryptFailure (List Nat) :=
  let privateKeyBytes := hexToBytes hostPrivateKeyHex
  let wrappedBytes := hexToBytes wrappedKeyHex
  if wrappedBytes.length < 44 then
    .error (.decryptError "Invalid wrapped key format" .INVALID_KEY)
  else
    let ephemeralPubkey := sliceBytes wrappedBytes 0 32
    let nonce := sliceBytes wrappedBytes 32 44
    let ciphertext := sliceBytesFrom wrappedBytes 44
    let sharedSecret := prims.x25519 privateKeyBytes ephemeralPubkey
    let aesKey := deriveAesKey prims sharedSecret
    match prims.aesGcmDecrypt ciphertext aesKey nonce with
    | some contentKeyBytes => .ok contentKeyBytes
    | none => .error .operationError

/-- Source `decryptContent` from `resolve.ts`: `nonce(0..12) ‖ ciphertext(12..)`,
AES-GCM decryption with the content key; a failed integrity check is caught
and rethrown as `DECRYPT_FAILED`. -/
def decryptContent (prims : CryptoPrims) (encrypted : List Nat) (contentKey : List Nat) :
    Except DecryptFailure (List Nat) :=
  if encrypted.length < 12 then
    .error (.decryptError "Invalid encrypted content format" .INVALID_CONTENT)
  else
    let nonce := sliceBytes encrypted 0 12
    let ciphertext := sliceBytesFrom encrypted 12
    match prims.aesGcmDecrypt ciphertext contentKey nonce with
    | some decrypted => .ok decrypted
    | none => .error (.decryptError "Decryption failed" .DECRYPT_FAILED)

/-- Source `getWrappedKey` from `resolve.ts`: the multi-host `keys` map is consulted
first, then the single legacy `wrappedKey` (either tagged with a matching
`hostPubkey`, or untagged); every check is a JS truthiness test. -/
def getWrappedKey (encryption : EncryptionConfig) (hostPubkey : String) : Option String :=
  let mapEntry := encryption.keys.bind (fun ks => ks.lookup hostPubkey)
  if truthyOptStr mapEntry then mapEntry
  else if truthyOptStr encryption.wrappedKey && (encryption.hostPubkey == some hostPubkey) then
    encryption.wrappedKey
  else if truthyOptStr encryption.wrappedKey && !(truthyOptStr encryption.hostPubkey) then
    encryption.wrappedKey
  else none

/-- Source `decrypt` from `resolve.ts`: pass input through unchanged unless
`manifest.encryption?.enabled` is truthy; otherwise locate the wrapped key via
`getWrappedKey` (failing with `NO_KEY_FOR_HOST`), unwrap it and decrypt. -/
def decrypt (prims : CryptoPrims) (encrypted : List Nat) (context : DecryptContext) :
    Except DecryptFailure (List Nat) :=
  match context.manifest.encryption with
  | none => .ok encrypted
  | some encryption =>
    if !encryption.enabled then .ok encrypted
    else
      let wrappedKey := getWrappedKey encryption context.hostPubkey
      if !(truthyOptStr wrappedKey) then
        .error (.decryptError "No wrapped key found for this host" .NO_KEY_FOR_HOST)
      else
        (unwrapContentKey prims (wrappedKey.getD "") context.hostPrivateKey).bind
          (fun contentKey => decryptContent prims encrypted contentKey)

/-! ## Protocol-dispatch handler (the `resolveByProtocol` handler iteration)

HTTP responses are embedded as status + body + the two headers the handler
sets.  A JSON response keeps its unserialized value as body (the source
serializes it with `JSON.stringify`, which no claim depends on). -/

structure HttpResponse where
  status : Nat
  body : Value
  contentType : String
  cacheControl : String

/-- Source `buildErrorHeaders()` sets `text/plain` and `no-store`. -/
def errorResponse (status : Nat) (msg : String) : HttpResponse :=
  { status := status
    body := .vstr msg
    contentType := "text/plain; charset=utf-8"
    cacheControl := "no-store" }

/-- Source `hasFileExtension`: the last `/`-separated segment contains a `.`. -/
def hasFileExtension (path : String) : Bool :=
  let lastSeg := lastFragment (splitOnChar path '/')
  lastSeg.toList.contains '.'

/-- Source `getProtocol`: the regex `^([a-z]+):\/\/` — a nonempty run of lowercase
letters immediately followed by `://`, else `""`. -/
def getProtocol (uri : String) : String :=
  let p := uri.toList.takeWhile (fun c => 'a' ≤ c && c ≤ 'z')
  if !p.isEmpty && "://".toList.isPrefixOf (uri.toList.drop p.length) then ⟨p⟩
  else ""

/-- Case-insensitive `endsWith`, as produced by a `/i` regex anchor. -/
def endsWithCI (s suffix : String) : Bool :=
  strEndsWith (toLowerStr s) (toLowerStr suffix)

/-- Hex digit class `[a-f0-9]` under the `/i` flag. -/
def isHexDigitCI (c : Char) : Bool :=
  ('0' ≤ c && c ≤ '9') || ('a' ≤ c && c ≤ 'f') || ('A' ≤ c && c ≤ 'F')

/-- Matcher for the regexes `\.[a-f0-9]{6,}\.(ext1|ext2|...)$/i`: the string
ends (case-insensitively) in `.ext`, and just before that extension sits a
maximal run of at least 6 hex digits preceded by a literal `.`.  (The regex's
hex group must end exactly at the pre-extension dot and start right after a
dot; backtracking only ever shortens the run into hex characters, never onto a
dot, so the maximal-run check is equivalent.) -/
def hashedHexBeforeExts (path : String) (exts : List String) : Bool :=
  exts.any (fun ext =>
    let sfx := "." ++ ext
    endsWithCI path sfx &&
      (let core := path.toList.reverse.drop sfx.toList.length
       let run := core.takeWhile isHexDigitCI
       decide (6 ≤ run.length) && ((core.drop run.length).head? == some '.')))

/-- The MIME table of the protocol-dispatch handler (`MIME_TYPES`). -/
def MIME_TYPES : List (String × String) :=
  [("html", "text/html; charset=utf-8"), ("htm", "text/html; charset=utf-8"),
   ("css", "text/css; charset=utf-8"), ("js", "application/javascript; charset=utf-8"),
   ("mjs", "application/javascript; charset=utf-8"), ("json", "application/json; charset=utf-8"),
   ("xml", "application/xml; charset=utf-8"), ("txt", "text/plain; charset=utf-8"),
   ("md", "text/markdown; charset=utf-8"), ("csv", "text/csv; charset=utf-8"),
   ("png", "image/png"), ("jpg", "image/jpeg"), ("jpeg", "image/jpeg"),
   ("gif", "image/gif"), ("webp", "image/webp"), ("svg", "image/svg+xml"),
   ("ico", "image/x-icon"), ("avif", "image/avif"),
   ("woff", "font/woff"), ("woff2", "font/woff2"), ("ttf", "font/ttf"),
   ("otf", "font/otf"), ("eot", "application/vnd.ms-fontobject"),
   ("mp3", "audio/mpeg"), ("mp4", "video/mp4"), ("webm", "video/webm"),
   ("ogg", "audio/ogg"), ("wav", "audio/wav"),
   ("wasm", "application/wasm"), ("pdf", "application/pdf"),
   ("zip", "application/zip"), ("gz", "application/gzip"), ("tar", "application/x-tar")]

/-- Source `getContentTypeFromUri`: last path segment, lowercased last dot-segment,
looked up in the MIME table with `application/octet-stream` as default. -/
def getContentTypeFromUri (uri : String) : String :=
  let path := lastFragment (splitOnChar uri '/')
  let ext := toLowerStr (lastFragment (splitOnChar path '.'))
  (MIME_TYPES.lookup ext).getD "application/octet-stream"

/-- Source `getCacheControl` of the protocol-dispatch handler: hashed assets
(`\.[a-f0-9]{6,}\.(js|css|woff2?)$/i` on the filename) cache forever,
everything else a moderate default. -/
def getCacheControl (path : String) : String :=
  let filename := lastFragment (splitOnChar path '/')
  if hashedHexBeforeExts filename ["js", "css", "woff", "woff2"] then
    "public, max-age=31536000, immutable"
  else
    "public, max-age=3600"

/-- Source `serveContent(data, uri)`: strings and byte arrays are served with headers
derived from the URI; anything else is served as JSON. -/
def serveContent (data : Value) (uri : String) : HttpResponse :=
  match data with
  | .vstr s =>
    { status := 200, body := .vstr s
      contentType := getContentTypeFromUri uri, cacheControl := getCacheControl uri }
  | .vbytes bs =>
    { status := 200, body := .vbytes bs
      contentType := getContentTypeFromUri uri, cacheControl := getCacheControl uri }
  | other =>
    { status := 200, body := other
      contentType := "application/json; charset=utf-8", cacheControl := getCacheControl uri }

/-- Max depth for following links (prevent infinite loops). -/
def MAX_LINK_DEPTH : Nat := 10

/-- The 508 Loop Detected response of `resolveByProtocol`. -/
def loopDetectedResponse : HttpResponse :=
  errorResponse 508 ("Too many link redirects (max " ++ toString MAX_LINK_DEPTH ++ ")")

/-- Body of `resolveByProtocol` with the remaining link allowance made
explicit: `fuel = MAX_LINK_DEPTH + 1 - depth`, so the source's entry check
`depth > MAX_LINK_DEPTH` is exactly `fuel = 0`, and the recursive call at
`depth + 1` is the call at `fuel - 1`.  This keeps the recursion structural
(hence total and computable by the kernel) while preserving the source's
behavior at every depth. -/
def resolveByProtocolFuel (store : Store) (fuel : Nat) (uri originalPath : String) :
    HttpResponse :=
  match fuel with
  | 0 => loopDetectedResponse
  | fuel' + 1 =>
    match getProtocol uri with
    | "link" =>
      match store uri with
      | none => errorResponse 404 ("Link not found: " ++ uri)
      | some raw =>
        if truthy raw then
          match unwrapData raw with
          | .vstr data => resolveByProtocolFuel store fuel' data originalPath
          | _ => errorResponse 500 ("Invalid link value at " ++ uri ++ ": expected URI string")
        else errorResponse 404 ("Link not found: " ++ uri)
    | "blob" =>
      match store uri with
      | none => errorResponse 404 ("Blob not found: " ++ uri)
      | some raw =>
        if truthy raw then serveContent (unwrapData raw) originalPath
        else errorResponse 404 ("Blob not found: " ++ uri)
    | "mutable" =>
      match store uri with
      | none => errorResponse 404 ("Not found: " ++ uri)
      | some raw =>
        if truthy raw then
          serveContent (unwrapData raw) (if originalPath != "" then originalPath else uri)
        else errorResponse 404 ("Not found: " ++ uri)
    | "immutable" =>
      match store uri with
      | none => errorResponse 404 ("Not found: " ++ uri)
      | some raw =>
        if truthy raw then
          serveContent (unwrapData raw) (if originalPath != "" then originalPath else uri)
        else errorResponse 404 ("Not found: " ++ uri)
    | protocol => errorResponse 400 ("Unsupported protocol: " ++ protocol)

/-- Source `resolveByProtocol`: dispatch a URI by scheme.  `link` records must hold a
URI string, which is followed recursively with the depth counter incremented;
`blob`, `mutable` and `immutable` records are served as-is; an unknown scheme
is a 400.  Exceeding `MAX_LINK_DEPTH` yields the 508 Loop Detected response. -/
def resolveByProtocol (store : Store) (uri originalPath : String) (depth : Nat) :
    HttpResponse :=
  resolveByProtocolFuel store (MAX_LINK_DEPTH + 1 - depth) uri originalPath

/-- Source `contentPath.replace(/\/$/, "")`: drop a single trailing slash. -/
def stripOneTrailingSlash (s : String) : String :=
  if strEndsWith s "/" then strDropRight s 1 else s

/-- Source `handleContent`'s base normalization: ensure the base ends in one `/`. -/
def normalizedBaseUri (baseUri : String) : String :=
  if strEndsWith baseUri "/" then baseUri else baseUri ++ "/"

/-- Source `handleContent`'s composed URI: `base + path` (truthy path check). -/
def composedContentUri (baseUri contentPath : String) : String :=
  if contentPath != "" then normalizedBaseUri baseUri ++ contentPath
  else normalizedBaseUri baseUri

/-- Source `handleContent`'s retry path: strip one trailing slash, then append
`/index.html` (just `index.html` for the empty path). -/
def indexRetryPath (contentPath : String) : String :=
  let basePath := stripOneTrailingSlash contentPath
  if basePath != "" then basePath ++ "/index.html" else "index.html"

/-- Source `handleContent` of the protocol-dispatch handler: compose `base + path`,
resolve it, and on a 404 for an extensionless path retry exactly once with
`index.html` appended after normalizing the slash. -/
def handleContent (store : Store) (baseUri contentPath : String) : HttpResponse :=
  let response := resolveByProtocol store (composedContentUri baseUri contentPath) contentPath 0
  if response.status == 404 && !(hasFileExtension contentPath) then
    resolveByProtocol store (normalizedBaseUri baseUri ++ indexRetryPath contentPath)
      (indexRetryPath contentPath) 0
  else response

/-! ## Header utilities (`headers.ts` iteration with `DEFAULT_CACHE_RULES`) -/

/-- Glob matching as produced by `matchGlob`'s glob-to-regex conversion:
`**` matches any run of characters, `*` any run without `/`, and every other
character (the conversion escapes the regex specials) matches itself. -/
def globMatchAux (p s : List Char) : Bool :=
  match p, s with
  | [], s => s.isEmpty
  | '*' :: '*' :: ps, s =>
    globMatchAux ps s ||
      (match s with
       | [] => false
       | _ :: t => globMatchAux ('*' :: '*' :: ps) t)
  | '*' :: ps, s =>
    globMatchAux ps s ||
      (match s with
       | [] => false
       | c :: t => (c != '/') && globMatchAux ('*' :: ps) t)
  | c :: ps, s =>
    match s with
    | [] => false
    | d :: t => (c == d) && globMatchAux ps t
termination_by (p.length, s.length)

/-- Source `matchGlob(path, pattern)`. -/
def matchGlob (path pattern : String) : Bool :=
  globMatchAux pattern.toList path.toList

/-- Source `DEFAULT_CACHE_RULES`: ordered (pattern, headers) pairs; each regex pattern
is embedded as its boolean matcher.  The last rule (`/.*/`) matches any path. -/
def DEFAULT_CACHE_RULES : List ((String → Bool) × List (String × String)) :=
  [ (fun p => hashedHexBeforeExts p ["js", "css", "woff", "woff2", "ttf", "eot"],
     [("Cache-Control", "public, max-age=31536000, immutable")]),
    (fun p => hashedHexBeforeExts p ["png", "jpg", "jpeg", "gif", "svg", "webp", "avif", "ico"],
     [("Cache-Control", "public, max-age=31536000, immutable")]),
    (fun p => endsWithCI p ".html" || endsWithCI p ".htm",
     [("Cache-Control", "public, max-age=0, must-revalidate")]),
    (fun p => endsWithCI p ".json",
     [("Cache-Control", "public, max-age=60")]),
    (fun _ => true,
     [("Cache-Control", "public, max-age=3600")]) ]

/-- First matching rule's headers (the source's `for` loop over the rules,
returning `{}` when nothing matches — unreachable, the last rule is total). -/
def firstMatchingRule (rules : List ((String → Bool) × List (String × String)))
    (filePath : String) : List (String × String) :=
  match rules with
  | [] => []
  | (test, headers) :: rest =>
    if test filePath then headers else firstMatchingRule rest filePath

/-- JS object spread `{ ...base, ...override }` on header records: keys of
`base` keep their position but take `override`'s value when present; keys only
in `override` follow. -/
def mergeHeaders (base override : List (String × String)) : List (String × String) :=
  (base.map (fun kv =>
    match override.lookup kv.1 with
    | some v => (kv.1, v)
    | none => kv)) ++
  override.filter (fun kv => (base.lookup kv.1).isNone)

/-- The `for (const [pattern, headers] of Object.entries(...))` scan: headers
of the first glob pattern matching the path. -/
def findFirstPattern (patterns : List (String × List (String × String)))
    (filePath : String) : Option (List (String × String)) :=
  match patterns with
  | [] => none
  | (pattern, headers) :: rest =>
    if matchGlob filePath pattern then some headers
    else findFirstPattern rest filePath

/-- Source `getCacheHeaders`: manifest pattern overrides first (merged over the
manifest default), then the manifest default, then the built-in rules. -/
def getCacheHeaders (filePath : String) (headersConfig : Option HeadersConfig) :
    List (String × String) :=
  let fromPatterns :=
    headersConfig.bind (fun cfg =>
      cfg.patterns.bind (fun pats =>
        (findFirstPattern pats filePath).map (fun hdrs =>
          mergeHeaders (cfg.dflt.getD []) hdrs)))
  match fromPatterns with
  | some hdrs => hdrs
  | none =>
    match headersConfig.bind HeadersConfig.dflt with
    | some dflt => dflt
    | none => firstMatchingRule DEFAULT_CACHE_RULES filePath

/-! ## Concrete stores, manifests and primitives used by the witnesses -/

/-- The manifest of the spec's path-precedence example: a single file
`docs/index.html` and `routing.spa = true`. -/
def exampleSpaManifest : Manifest :=
  { buildHash := "b1"
    files := [("docs/index.html", { size := 4, contentType := "text/html; charset=utf-8" })]
    routing := some { spa := some true } }

/-- A backing store holding one enveloped target pointer for app `app1`. -/
def examplePointerStore : Store := fun uri =>
  if uri = "mutable://accounts/app1/target" then
    some (.vobj [("auth", .vobj []),
                 ("payload", .vobj [("buildHash", .vstr "build9"),
                                    ("version", .vstr "1.2.0")])])
  else none

/-- A plain unencrypted manifest used by the decrypt witnesses. -/
def examplePlainManifest : Manifest :=
  { buildHash := "b2"
    files := [("index.html", { size := 3, contentType := "text/html; charset=utf-8" })] }

/-- Crypto primitives used only to instantiate witnesses (the theorems hold
for every implementation of the primitives). -/
def witnessPrims : CryptoPrims :=
  { x25519 := fun priv pub => priv ++ pub
    hkdfSha256 := fun salt info ikm => salt ++ info ++ ikm
    aesGcmDecrypt := fun ciphertext _ _ => some ciphertext }

/-- Alternative crypto primitives for the pass-through witness. -/
def witnessPrims2 : CryptoPrims :=
  { x25519 := fun _ _ => []
    hkdfSha256 := fun _ _ _ => []
    aesGcmDecrypt := fun _ _ _ => none }

/-- Encryption context of the multi-host scenario: wrapped keys for hosts A
and B, serving host B. -/
def exampleEncB : EncryptionConfig :=
  { enabled := true
    keys := some [("hostA", "aa11"), ("hostB", "bb22")] }

/-- Multi-host scenario manifest with keys for A and B. -/
def exampleEncManifestAB : Manifest :=
  { buildHash := "b3"
    files := []
    encryption := some exampleEncB }

/-- Manifest whose encryption config only wraps the key for host A. -/
def exampleEncManifestA : Manifest :=
  { buildHash := "b4"
    files := []
    encryption := some { enabled := true, keys := some [("hostA", "aa11")] } }

/-- An 88-character hex string (44 zero bytes). -/
def zeros88Hex : String := ⟨List.replicate 88 '0'⟩

/-- A set of URIs forming closed chains of link records in a store: every URI
in the set has the `link` scheme and holds a truthy record whose unwrapped
value is a URI string back inside the set (any cyclic chain of link records
is such a set). -/
def linkCycle (store : Store) (uris : List String) : Prop :=
  ∀ u ∈ uris, getProtocol u = "link" ∧
    ∃ v, store u = some v ∧ truthy v = true ∧
      ∃ u2, unwrapData v = .vstr u2 ∧ u2 ∈ uris

/-- A store holding a two-record link cycle. -/
def exampleCycleStore : Store := fun uri =>
  if uri = "link://open/a" then some (.vstr "link://open/b")
  else if uri = "link://open/b" then some (.vstr "link://open/a")
  else none

/-- A store where an `immutable` record and a `link` record both hold the same
URI-shaped string value, whose target exists and holds different content. -/
def exampleAsymmetryStore : Store := fun uri =>
  if uri = "immutable://open/direct" then some (.vstr "immutable://open/t.html")
  else if uri = "link://open/ptr" then some (.vstr "immutable://open/t.html")
  else if uri = "immutable://open/t.html" then some (.vstr "hello")
  else none

/-- A store holding only the directory index of `docs` under a site base. -/
def exampleRetryStore : Store := fun uri =>
  if uri = "immutable://open/site/docs/index.html" then some (.vstr "hello")
  else none

/-! ## Claim C10: duck-typed, single-level envelope unwrapping -/

/-- Claim C10: `unwrapData` is duck-typed and single-level, with no signature
verification: it returns `value.payload` exactly when the value is a non-null
object containing a `payload` key (whatever else it contains, signatures
included), returns the value unchanged otherwise, and unwraps exactly one
level — a payload that itself carries a `payload` key is returned as-is. -/
theorem unwrapData_duck_typed_single_level (v : Value) :
    (∀ fields p, v = .vobj fields → lookupField fields "payload" = some p →
        unwrapData v = p) ∧
    ((∀ fields, v = .vobj fields → lookupField fields "payload" = none) →
        unwrapData v = v) ∧
    (∀ fields inner, v = .vobj fields →
        lookupField fields "payload" = some (.vobj inner) →
        unwrapData v = .vobj inner) := by
  refine ⟨?_, ?_, ?_⟩
  · intro fields p hv hl
    subst hv
    simp [unwrapData, hl]
  · intro hnone
    cases v with
    | vobj fields =>
      have h := hnone fields rfl
      simp [unwrapData, h]
    | vnull => rfl
    | vundefined => rfl
    | vbool b => rfl
    | vnum n => rfl
    | vstr s => rfl
    | vbytes bs => rfl
  · intro fields inner hv hl
    subst hv
    simp [unwrapData, hl]

/-- Witness for C10: an envelope whose payload is itself an object with a
`payload` key is unwrapped exactly one level; a `signatures` sibling is
ignored. -/
theorem unwrapData_duck_typed_single_level_witness :
    unwrapData (.vobj [("signatures", .vnull),
                       ("payload", .vobj [("payload", .vstr "x")])]) =
      .vobj [("payload", .vstr "x")] :=
  (unwrapData_duck_typed_single_level
      (.vobj [("signatures", .vnull), ("payload", .vobj [("payload", .vstr "x")])])).1
    [("signatures", .vnull), ("payload", .vobj [("payload", .vstr "x")])]
    (.vobj [("payload", .vstr "x")]) rfl rfl

/-! ## Claim C1: `resolvePath` precedence -/

/-- Claim C1: `resolvePath` resolves strictly in order — normalize (strip one
leading `/`, empty becomes the routing entrypoint or `index.html`), exact
match against `manifest.files`, directory index (`path + "/index.html"` with
at most one slash inserted), SPA fallback (only when `routing.spa` is truthy
and the entrypoint file itself is present, returned with the fallback flag),
otherwise the `NOT_FOUND` error.  An exact or directory-index file always wins
over SPA fallback, and SPA mode with an absent entrypoint file is `NOT_FOUND`. -/
theorem resolvePath_precedence (path : String) (m : Manifest) :
    (∀ fe, m.files.lookup (normalizePath path m) = some fe →
        resolvePath path m = .ok ⟨normalizePath path m, fe, none⟩) ∧
    (m.files.lookup (normalizePath path m) = none →
      ∀ fe, m.files.lookup (directoryIndexPath (normalizePath path m)) = some fe →
        resolvePath path m = .ok ⟨directoryIndexPath (normalizePath path m), fe, none⟩) ∧
    (m.files.lookup (normalizePath path m) = none →
      m.files.lookup (directoryIndexPath (normalizePath path m)) = none →
      spaEnabled m = true →
      ∀ fe, m.files.lookup (manifestEntrypoint m) = some fe →
        resolvePath path m = .ok ⟨manifestEntrypoint m, fe, some true⟩) ∧
    (m.files.lookup (normalizePath path m) = none →
      m.files.lookup (directoryIndexPath (normalizePath path m)) = none →
      (spaEnabled m = false ∨ m.files.lookup (manifestEntrypoint m) = none) →
        resolvePath path m = .error ⟨"File not found: " ++ path, .NOT_FOUND⟩) := by
  refine ⟨?_, ?_, ?_, ?_⟩
  · intro fe h1
    simp [resolvePath, h1]
  · intro h1 fe h2
    simp [resolvePath, h1, h2]
  · intro h1 h2 hspa fe h3
    simp [resolvePath, h1, h2, hspa, h3]
  · intro h1 h2 h3
    rcases h3 with hspa | hent
    · simp [resolvePath, h1, h2, hspa]
    · rcases Bool.eq_false_or_eq_true (spaEnabled m) with hspa | hspa
      · simp [resolvePath, h1, h2, hspa]
        rw [hent]
      · simp [resolvePath, h1, h2, hspa]

/-- Witness for C1: `/docs` resolves to the directory index (not the SPA
entrypoint), and `/unknown` is `NOT_FOUND` because the entrypoint file itself
is absent from `files` even though `routing.spa` is true. -/
theorem resolvePath_precedence_witness :
    resolvePath "/docs" exampleSpaManifest =
      .ok ⟨"docs/index.html", { size := 4, contentType := "text/html; charset=utf-8" }, none⟩ ∧
    resolvePath "/unknown" exampleSpaManifest =
      .error ⟨"File not found: /unknown", .NOT_FOUND⟩ := by
  constructor
  · exact (resolvePath_precedence "/docs" exampleSpaManifest).2.1 rfl
      { size := 4, contentType := "text/html; charset=utf-8" } rfl
  · exact (resolvePath_precedence "/unknown" exampleSpaManifest).2.2.2 rfl rfl
      (Or.inr rfl)

/-! ## Claim C7: `resolveTarget` preview mode vs. pointer mode -/

/-- Claim C7: with a truthy explicit build hash (preview mode) `resolveTarget`
builds the `BuildTarget` directly — its result is identical for every backing
store, so no read can block it; without one it reads the owner's mutable
target pointer, unwraps its envelope, and a missing or falsy pointer record is
the `NO_TARGET` error rather than a zero-value build. -/
theorem resolveTarget_preview_vs_pointer (store store2 : Store)
    (request : HostRequest) (pattern : UriPattern) :
    (truthyOptStr request.buildHash = true →
        resolveTarget store request pattern = resolveTarget store2 request pattern ∧
        resolveTarget store request pattern =
          .ok ⟨request.appPubkey, .vstr (request.buildHash.getD ""),
               buildBaseUri request.appPubkey (request.buildHash.getD "") pattern,
               .vundefined⟩) ∧
    (truthyOptStr request.buildHash = false →
      store (targetUri request.appPubkey pattern) = none →
        resolveTarget store request pattern =
          .error ⟨"No target found for app " ++ request.appPubkey, .NO_TARGET⟩) ∧
    (truthyOptStr request.buildHash = false →
      ∀ data, store (targetUri request.appPubkey pattern) = some data →
        truthy data = false →
        resolveTarget store request pattern =
          .error ⟨"No target found for app " ++ request.appPubkey, .NO_TARGET⟩) ∧
    (truthyOptStr request.buildHash = false →
      ∀ data, store (targetUri request.appPubkey pattern) = some data →
        truthy data = true →
        resolveTarget store request pattern =
          .ok ⟨request.appPubkey, vget (unwrapData data) "buildHash",
               buildBaseUri request.appPubkey
                 (jsToString (vget (unwrapData data) "buildHash")) pattern,
               vget (unwrapData data) "version"⟩) := by
  refine ⟨?_, ?_, ?_, ?_⟩
  · intro hbh
    constructor
    · simp [resolveTarget, hbh]
    · simp [resolveTarget, hbh]
  · intro hbh hst
    simp [resolveTarget, hbh, hst]
  · intro hbh data hst htr
    simp [resolveTarget, hbh, hst, htr]
  · intro hbh data hst htr
    simp [resolveTarget, hbh, hst, htr]

/-- Witness for C7: preview mode ignores an empty store entirely, and pointer
mode unwraps the envelope and reads the pointed-to build hash. -/
theorem resolveTarget_preview_vs_pointer_witness :
    resolveTarget (fun _ => none) ⟨"app1", "/", some "deadbeef"⟩ .accounts =
      .ok ⟨"app1", .vstr "deadbeef",
           "immutable://accounts/app1/builds/deadbeef", .vundefined⟩ ∧
    resolveTarget examplePointerStore ⟨"app1", "/", none⟩ .accounts =
      .ok ⟨"app1", .vstr "build9",
           "immutable://accounts/app1/builds/build9", .vstr "1.2.0"⟩ := by
  constructor
  · exact ((resolveTarget_preview_vs_pointer (fun _ => none) (fun _ => none)
      ⟨"app1", "/", some "deadbeef"⟩ .accounts).1 rfl).2
  · exact (resolveTarget_preview_vs_pointer examplePointerStore examplePointerStore
      ⟨"app1", "/", none⟩ .accounts).2.2.2 rfl
      (.vobj [("auth", .vobj []),
              ("payload", .vobj [("buildHash", .vstr "build9"),
                                 ("version", .vstr "1.2.0")])]) rfl rfl

/-! ## Claim C5: decrypt pass-through when encryption is off -/

/-- Claim C5: when the manifest does not have `encryption.enabled` set to
true, `decrypt` returns its input unchanged, byte for byte, independent of
the crypto primitives (no key lookup, no decryption). -/
theorem decrypt_passthrough (prims prims2 : CryptoPrims) (encrypted : List Nat)
    (context : DecryptContext) (hoff : isEncrypted context.manifest = false) :
    decrypt prims encrypted context = .ok encrypted ∧
    decrypt prims encrypted context = decrypt prims2 encrypted context := by
  match henc : context.manifest.encryption with
  | none => exact ⟨by simp [decrypt, henc], by simp [decrypt, henc]⟩
  | some e =>
    have hen : e.enabled = false := by
      simpa [isEncrypted, henc] using hoff
    exact ⟨by simp [decrypt, henc, hen], by simp [decrypt, henc, hen]⟩

/-- Witness for C5: with encryption absent, the input bytes come back
unchanged under two different primitive implementations. -/
theorem decrypt_passthrough_witness :
    decrypt witnessPrims [7, 8, 9] ⟨"aa", "hostB", examplePlainManifest⟩ = .ok [7, 8, 9] ∧
    decrypt witnessPrims [7, 8, 9] ⟨"aa", "hostB", examplePlainManifest⟩ =
      decrypt witnessPrims2 [7, 8, 9] ⟨"aa", "hostB", examplePlainManifest⟩ :=
  decrypt_passthrough witnessPrims witnessPrims2 [7, 8, 9]
    ⟨"aa", "hostB", examplePlainManifest⟩ rfl

/-! ## Claim C4: wrapped-key lookup precedence and fail-closed behavior -/

/-- Claim C4: with `encryption.enabled` true, `decrypt` locates the wrapped
content key by checking the multi-host map `encryption.keys` for the serving
host first and the single legacy wrapped-key field second, in that precedence
order (the legacy key applies when its `hostPubkey` matches or is unset); when
no wrapped key applies the result is the `NO_KEY_FOR_HOST` error and never a
plaintext or ciphertext fallback. -/
theorem decrypt_key_selection (prims : CryptoPrims) (encrypted : List Nat)
    (context : DecryptContext) (e : EncryptionConfig)
    (henc : context.manifest.encryption = some e) (hon : e.enabled = true) :
    (∀ wk, e.keys.bind (fun ks => ks.lookup context.hostPubkey) = some wk → wk ≠ "" →
        decrypt prims encrypted context =
          (unwrapContentKey prims wk context.hostPrivateKey).bind
            (fun contentKey => decryptContent prims encrypted contentKey)) ∧
    (truthyOptStr (e.keys.bind (fun ks => ks.lookup context.hostPubkey)) = false →
      ∀ wk, e.wrappedKey = some wk → wk ≠ "" →
      (e.hostPubkey = some context.hostPubkey ∨ truthyOptStr e.hostPubkey = false) →
        decrypt prims encrypted context =
          (unwrapContentKey prims wk context.hostPrivateKey).bind
            (fun contentKey => decryptContent prims encrypted contentKey)) ∧
    (truthyOptStr (e.keys.bind (fun ks => ks.lookup context.hostPubkey)) = false →
      (truthyOptStr e.wrappedKey = false ∨
        (e.hostPubkey ≠ some context.hostPubkey ∧ truthyOptStr e.hostPubkey = true)) →
        decrypt prims encrypted context =
          .error (.decryptError "No wrapped key found for this host" .NO_KEY_FOR_HOST)) := by
  refine ⟨?_, ?_, ?_⟩
  · intro wk hmap hne
    have hwkt : truthyOptStr (some wk) = true := by simp [truthyOptStr, hne]
    have hkey : getWrappedKey e context.hostPubkey = some wk := by
      simp [getWrappedKey, hmap, hwkt]
    simp [decrypt, henc, hon, hkey, hwkt]
  · intro hmap wk hleg hne happ
    have hwkt : truthyOptStr (some wk) = true := by simp [truthyOptStr, hne]
    have hkey : getWrappedKey e context.hostPubkey = some wk := by
      rcases happ with hmatch | hunset
      · simp [getWrappedKey, hmap, hleg, hmatch, hwkt]
      · rcases Bool.eq_false_or_eq_true (e.hostPubkey == some context.hostPubkey) with hm | hm
        · simp [getWrappedKey, hmap, hleg, hwkt, hm, hunset]
        · simp [getWrappedKey, hmap, hleg, hwkt, hm, hunset]
    simp [decrypt, henc, hon, hkey, hwkt]
  · intro hmap hno
    have hkey : getWrappedKey e context.hostPubkey = none := by
      rcases hno with hwk | ⟨hnm, hset⟩
      · simp [getWrappedKey, hmap, hwk]
      · have hm : (e.hostPubkey == some context.hostPubkey) = false := by
          simpa using hnm
        simp [getWrappedKey, hmap, hm, hset]
    simp [decrypt, henc, hon, hkey, truthyOptStr]

/-- Witness for C4: a gateway holding host B's key decrypts through B's map
entry (the pipeline is invoked on `"bb22"`), and fails with `NO_KEY_FOR_HOST`
when only host A's entry exists. -/
theorem decrypt_key_selection_witness :
    decrypt witnessPrims [1, 2, 3] ⟨"aa", "hostB", exampleEncManifestAB⟩ =
      (unwrapContentKey witnessPrims "bb22" "aa").bind
        (fun contentKey => decryptContent witnessPrims [1, 2, 3] contentKey) ∧
    decrypt witnessPrims [1, 2, 3] ⟨"aa", "hostB", exampleEncManifestA⟩ =
      .error (.decryptError "No wrapped key found for this host" .NO_KEY_FOR_HOST) := by
  constructor
  · exact (decrypt_key_selection witnessPrims [1, 2, 3]
      ⟨"aa", "hostB", exampleEncManifestAB⟩ exampleEncB rfl rfl).1 "bb22" rfl
      (by decide)
  · exact (decrypt_key_selection witnessPrims [1, 2, 3]
      ⟨"aa", "hostB", exampleEncManifestA⟩
      { enabled := true, keys := some [("hostA", "aa11")] } rfl rfl).2.2 rfl
      (Or.inl rfl)

/-! ## Claim C6: wrapped-key parsing and fixed KDF constants -/

/-- Claim C6: `unwrapContentKey` parses the wrapped key as
`ephemeralPublicKey (bytes 0..32) ‖ nonce (bytes 32..44) ‖ ciphertext (rest)`,
rejects inputs shorter than 44 bytes with the invalid-key error, derives the
shared secret by X25519 between the host private key and the ephemeral public
key, derives the AES key via HKDF-SHA256 with the fixed protocol-wide salt
(32 zero bytes) and info constant (`"appsfirecat-content-key"`), and AES-GCM
decrypts the ciphertext — a deterministic pipeline, so any two conforming
implementations derive the same key from the same inputs. -/
theorem unwrapContentKey_parse_and_constants (prims : CryptoPrims)
    (wrappedKeyHex hostPrivateKeyHex : String) :
    ((hexToBytes wrappedKeyHex).length < 44 →
        unwrapContentKey prims wrappedKeyHex hostPrivateKeyHex =
          .error (.decryptError "Invalid wrapped key format" .INVALID_KEY)) ∧
    (44 ≤ (hexToBytes wrappedKeyHex).length →
        unwrapContentKey prims wrappedKeyHex hostPrivateKeyHex =
          (match prims.aesGcmDecrypt ((hexToBytes wrappedKeyHex).drop 44)
              (prims.hkdfSha256 (List.replicate 32 0)
                ("appsfirecat-content-key".toList.map Char.toNat)
                (prims.x25519 (hexToBytes hostPrivateKeyHex)
                  ((hexToBytes wrappedKeyHex).take 32)))
              (((hexToBytes wrappedKeyHex).drop 32).take 12) with
           | some contentKeyBytes => Except.ok contentKeyBytes
           | none => Except.error DecryptFailure.operationError)) := by
  constructor
  · intro hshort
    simp [unwrapContentKey, hshort]
  · intro hlong
    have hnlt : ¬ (hexToBytes wrappedKeyHex).length < 44 := by omega
    have htake : sliceBytes (hexToBytes wrappedKeyHex) 0 32 =
        (hexToBytes wrappedKeyHex).take 32 := by
      simp [sliceBytes]
    have hnonce : sliceBytes (hexToBytes wrappedKeyHex) 32 44 =
        ((hexToBytes wrappedKeyHex).drop 32).take 12 := by
      simp [sliceBytes, List.drop_take]
    simp only [unwrapContentKey, hnlt, if_false, htake, hnonce, sliceBytesFrom,
      deriveAesKey, protocolHkdfSalt, protocolHkdfInfo]

/-- Witness for C6: a 1-byte wrapped key is rejected as `INVALID_KEY`; a
44-byte wrapped key flows through the fixed-constant pipeline (with the
witness primitives, the empty ciphertext comes back as the content key). -/
theorem unwrapContentKey_parse_and_constants_witness :
    unwrapContentKey witnessPrims "00" "aa" =
      .error (.decryptError "Invalid wrapped key format" .INVALID_KEY) ∧
    unwrapContentKey witnessPrims zeros88Hex "aa" = .ok [] := by
  constructor
  · exact (unwrapContentKey_parse_and_constants witnessPrims "00" "aa").1 (by decide)
  · exact ((unwrapContentKey_parse_and_constants witnessPrims zeros88Hex "aa").2
      (by decide)).trans (by rfl)

/-! ## Claim C2: bounded link recursion and Loop Detected -/

/-- Key step for C2: starting inside a closed link cycle, the fuel-indexed
resolver always ends in the Loop Detected response, by induction on fuel. -/
theorem resolveByProtocolFuel_cycle (store : Store) (uris : List String)
    (hcyc : linkCycle store uris) (fuel : Nat) :
    ∀ u ∈ uris, ∀ originalPath,
      resolveByProtocolFuel store fuel u originalPath = loopDetectedResponse := by
  induction fuel with
  | zero => intro u _ originalPath; rfl
  | succ n ih =>
    intro u hu originalPath
    obtain ⟨hproto, v, hst, htr, u2, hun, hu2⟩ := hcyc u hu
    rw [show resolveByProtocolFuel store (n + 1) u originalPath =
        resolveByProtocolFuel store n u2 originalPath by
      simp [resolveByProtocolFuel, hproto, hst, htr, hun]]
    exact ih u2 hu2 originalPath

/-- Claim C2: for every backing store containing a cyclic chain of link
records, resolution (which terminates — `resolveByProtocol` is a total
function whose link recursion consumes the remaining allowance
`MAX_LINK_DEPTH + 1 - depth`) returns the distinct Loop Detected response
(status 508), at every starting depth; and independently, any call past the
fixed `MAX_LINK_DEPTH` bound immediately yields that same response. -/
theorem resolveByProtocol_cycle_loop_detected (store : Store) (uris : List String)
    (hcyc : linkCycle store uris) :
    (∀ u ∈ uris, ∀ originalPath depth,
        resolveByProtocol store u originalPath depth = loopDetectedResponse ∧
        (resolveByProtocol store u originalPath depth).status = 508) ∧
    (∀ uri originalPath depth, MAX_LINK_DEPTH < depth →
        resolveByProtocol store uri originalPath depth = loopDetectedResponse) := by
  constructor
  · intro u hu originalPath depth
    have h := resolveByProtocolFuel_cycle store uris hcyc
      (MAX_LINK_DEPTH + 1 - depth) u hu originalPath
    exact ⟨h, by rw [resolveByProtocol, h]; rfl⟩
  · intro uri originalPath depth hdepth
    have hz : MAX_LINK_DEPTH + 1 - depth = 0 := by omega
    rw [resolveByProtocol, hz]
    rfl

/-- Witness for C2: the two-record cycle `link://open/a ↔ link://open/b`
resolves to the 508 Loop Detected response from depth 0. -/
theorem resolveByProtocol_cycle_loop_detected_witness :
    resolveByProtocol exampleCycleStore "link://open/a" "" 0 = loopDetectedResponse ∧
    (resolveByProtocol exampleCycleStore "link://open/a" "" 0).status = 508 := by
  have hcyc : linkCycle exampleCycleStore ["link://open/a", "link://open/b"] := by
    intro u hu
    simp only [List.mem_cons, List.not_mem_nil, or_false] at hu
    rcases hu with h | h
    · subst h
      exact ⟨by decide, .vstr "link://open/b", rfl, rfl, "link://open/b", rfl, by simp⟩
    · subst h
      exact ⟨by decide, .vstr "link://open/a", rfl, rfl, "link://open/a", rfl, by simp⟩
  exact (resolveByProtocol_cycle_loop_detected exampleCycleStore
    ["link://open/a", "link://open/b"] hcyc).1 "link://open/a" (by simp) "" 0

/-! ## Claim C3: only the link scheme triggers indirection -/

/-- Claim C3: a record reached through a `mutable` or `immutable` URI whose
unwrapped value is a string — even a URI-shaped one — is served verbatim as
content (status 200, the string as body), independent of what the rest of the
store maps that string to; a `link` record with the same string value is
followed (the call recurses on the string with the depth incremented); and a
`link` record whose unwrapped value is not a string is the invalid-link 500
error, not content. -/
theorem resolveByProtocol_scheme_asymmetry (store : Store) (uri originalPath : String)
    (depth : Nat) (hdepth : depth ≤ MAX_LINK_DEPTH) (v : Value)
    (hread : store uri = some v) (htruthy : truthy v = true) :
    (∀ s, (getProtocol uri = "mutable" ∨ getProtocol uri = "immutable") →
      unwrapData v = .vstr s →
        resolveByProtocol store uri originalPath depth =
          serveContent (.vstr s) (if originalPath != "" then originalPath else uri) ∧
        (resolveByProtocol store uri originalPath depth).status = 200 ∧
        (resolveByProtocol store uri originalPath depth).body = .vstr s ∧
        ∀ store2 : Store, store2 uri = some v →
          resolveByProtocol store2 uri originalPath depth =
            resolveByProtocol store uri originalPath depth) ∧
    (∀ s, getProtocol uri = "link" → unwrapData v = .vstr s →
        resolveByProtocol store uri originalPath depth =
          resolveByProtocol store s originalPath (depth + 1)) ∧
    (getProtocol uri = "link" → (∀ s, unwrapData v ≠ .vstr s) →
        resolveByProtocol store uri originalPath depth =
          errorResponse 500 ("Invalid link value at " ++ uri ++ ": expected URI string")) := by
  have hfuel : MAX_LINK_DEPTH + 1 - depth = (MAX_LINK_DEPTH - depth) + 1 := by omega
  refine ⟨?_, ?_, ?_⟩
  · intro s hproto hun
    have hserve : resolveByProtocol store uri originalPath depth =
        serveContent (.vstr s) (if originalPath != "" then originalPath else uri) := by
      rcases hproto with hproto | hproto
      · rw [resolveByProtocol, hfuel]
        simp [resolveByProtocolFuel, hproto, hread, htruthy, hun]
      · rw [resolveByProtocol, hfuel]
        simp [resolveByProtocolFuel, hproto, hread, htruthy, hun]
    refine ⟨hserve, by rw [hserve]; rfl, by rw [hserve]; rfl, ?_⟩
    intro store2 hread2
    rw [hserve]
    rcases hproto with hproto | hproto
    · rw [resolveByProtocol, hfuel]
      simp [resolveByProtocolFuel, hproto, hread2, htruthy, hun]
    · rw [resolveByProtocol, hfuel]
      simp [resolveByProtocolFuel, hproto, hread2, htruthy, hun]
  · intro s hproto hun
    have hrec : MAX_LINK_DEPTH + 1 - (depth + 1) = MAX_LINK_DEPTH - depth := by omega
    rw [resolveByProtocol, resolveByProtocol, hfuel, hrec]
    simp [resolveByProtocolFuel, hproto, hread, htruthy, hun]
  · intro hproto hnostr
    rw [resolveByProtocol, hfuel]
    cases hv : unwrapData v with
    | vstr s => exact absurd hv (hnostr s)
    | vnull => simp [resolveByProtocolFuel, hproto, hread, htruthy, hv]
    | vundefined => simp [resolveByProtocolFuel, hproto, hread, htruthy, hv]
    | vbool b => simp [resolveByProtocolFuel, hproto, hread, htruthy, hv]
    | vnum n => simp [resolveByProtocolFuel, hproto, hread, htruthy, hv]
    | vbytes bs => simp [resolveByProtocolFuel, hproto, hread, htruthy, hv]
    | vobj fields => simp [resolveByProtocolFuel, hproto, hread, htruthy, hv]

/-- Witness for C3: through `immutable://` the URI-shaped string itself is the
served body (not the target's content), while the `link://` record with the
same value is followed to the target's content; a link holding an object is
the 500 invalid-link error. -/
theorem resolveByProtocol_scheme_asymmetry_witness :
    (resolveByProtocol exampleAsymmetryStore "immutable://open/direct" "p" 0).body =
      .vstr "immutable://open/t.html" ∧
    resolveByProtocol exampleAsymmetryStore "link://open/ptr" "p" 0 =
      resolveByProtocol exampleAsymmetryStore "immutable://open/t.html" "p" 1 ∧
    resolveByProtocol (fun uri =>
        if uri = "link://open/bad" then some (.vobj [("x", .vnum 1)]) else none)
      "link://open/bad" "p" 0 =
      errorResponse 500 "Invalid link value at link://open/bad: expected URI string" := by
  refine ⟨?_, ?_, ?_⟩
  · exact ((resolveByProtocol_scheme_asymmetry exampleAsymmetryStore
      "immutable://open/direct" "p" 0 (by decide) (.vstr "immutable://open/t.html")
      rfl rfl).1 "immutable://open/t.html" (Or.inr (by decide)) rfl).2.2.1
  · exact (resolveByProtocol_scheme_asymmetry exampleAsymmetryStore
      "link://open/ptr" "p" 0 (by decide) (.vstr "immutable://open/t.html")
      rfl rfl).2.1 "immutable://open/t.html" (by decide) rfl
  · exact ((resolveByProtocol_scheme_asymmetry
      (fun uri => if uri = "link://open/bad" then some (.vobj [("x", .vnum 1)]) else none)
      "link://open/bad" "p" 0 (by decide) (.vobj [("x", .vnum 1)]) rfl rfl).2.2
      (by decide) (fun s h => by cases h)).trans (by rfl)

/-! ## Claim C8: single index.html retry for extensionless paths -/

/-- Claim C8: when resolving the composed content URI returns something other
than not-found, or the remaining request path has a file extension, serving
returns that first response (no retry); when the first response is a 404 and
the path lacks a file extension, serving retries exactly once against the
same base with `/index.html` appended (exactly one slash between them), and
whatever that single retry produces — its own not-found included — is what
the caller gets. -/
theorem handleContent_index_retry (store : Store) (baseUri contentPath : String) :
    ((resolveByProtocol store (composedContentUri baseUri contentPath) contentPath 0).status ≠ 404 →
        handleContent store baseUri contentPath =
          resolveByProtocol store (composedContentUri baseUri contentPath) contentPath 0) ∧
    ((resolveByProtocol store (composedContentUri baseUri contentPath) contentPath 0).status = 404 →
      hasFileExtension contentPath = true →
        handleContent store baseUri contentPath =
          resolveByProtocol store (composedContentUri baseUri contentPath) contentPath 0) ∧
    ((resolveByProtocol store (composedContentUri baseUri contentPath) contentPath 0).status = 404 →
      hasFileExtension contentPath = false →
        handleContent store baseUri contentPath =
          resolveByProtocol store
            (normalizedBaseUri baseUri ++ indexRetryPath contentPath)
            (indexRetryPath contentPath) 0) := by
  refine ⟨?_, ?_, ?_⟩
  · intro h
    have hb : ((resolveByProtocol store (composedContentUri baseUri contentPath)
        contentPath 0).status == 404) = false := by
      simpa using h
    simp [handleContent, hb]
  · intro h404 hext
    simp [handleContent, hext]
  · intro h404 hext
    have hb : ((resolveByProtocol store (composedContentUri baseUri contentPath)
        contentPath 0).status == 404) = true := by
      simpa using h404
    simp [handleContent, hb, hext]

/-- Witness for C8: requesting extensionless `docs` under the base misses,
and the single `docs/index.html` retry serves the stored content. -/
theorem handleContent_index_retry_witness :
    (handleContent exampleRetryStore "immutable://open/site" "docs").status = 200 ∧
    (handleContent exampleRetryStore "immutable://open/site" "docs").body = .vstr "hello" := by
  have h := (handleContent_index_retry exampleRetryStore
    "immutable://open/site" "docs").2.2 (by rfl) (by decide)
  rw [h]
  exact ⟨rfl, rfl⟩

/-! ## Claim C9: default cache rules (corrected: the JSON rule) -/

/-- Counterexample to Claim C9 as stated: `data.json` matches neither the
content-hash rule nor the HTML rule, so the claim's rule (c) promises the
moderate default `max-age=3600`, but `getCacheHeaders` gives it the separate
JSON rule's `max-age=60`. -/
theorem getCacheHeaders_c9_counterexample :
    getCacheHeaders "data.json" none = [("Cache-Control", "public, max-age=60")] ∧
    getCacheHeaders "data.json" none ≠ [("Cache-Control", "public, max-age=3600")] := by
  decide

/-- Claim C9 as amended: the default directive is chosen by the first matching
rule, in order — (a) a dot-separated hex fragment of at least 6 characters
immediately before a known static-asset extension (code or image) gets the
long-lived immutable directive; (b) an HTML file gets zero max-age with
must-revalidate; (b') a JSON file gets `max-age=60`; (c) every other path
gets the moderate default `max-age=3600` — and a manifest-level headers
override (a matching pattern, or the default entry) always wins over these
rules. -/
theorem getCacheHeaders_rules_amended (filePath : String) :
    ((hashedHexBeforeExts filePath ["js", "css", "woff", "woff2", "ttf", "eot"] = true ∨
      hashedHexBeforeExts filePath ["png", "jpg", "jpeg", "gif", "svg", "webp", "avif", "ico"] = true) →
        getCacheHeaders filePath none =
          [("Cache-Control", "public, max-age=31536000, immutable")]) ∧
    (hashedHexBeforeExts filePath ["js", "css", "woff", "woff2", "ttf", "eot"] = false →
      hashedHexBeforeExts filePath ["png", "jpg", "jpeg", "gif", "svg", "webp", "avif", "ico"] = false →
      (endsWithCI filePath ".html" = true ∨ endsWithCI filePath ".htm" = true) →
        getCacheHeaders filePath none =
          [("Cache-Control", "public, max-age=0, must-revalidate")]) ∧
    (hashedHexBeforeExts filePath ["js", "css", "woff", "woff2", "ttf", "eot"] = false →
      hashedHexBeforeExts filePath ["png", "jpg", "jpeg", "gif", "svg", "webp", "avif", "ico"] = false →
      endsWithCI filePath ".html" = false → endsWithCI filePath ".htm" = false →
      endsWithCI filePath ".json" = true →
        getCacheHeaders filePath none = [("Cache-Control", "public, max-age=60")]) ∧
    (hashedHexBeforeExts filePath ["js", "css", "woff", "woff2", "ttf", "eot"] = false →
      hashedHexBeforeExts filePath ["png", "jpg", "jpeg", "gif", "svg", "webp", "avif", "ico"] = false →
      endsWithCI filePath ".html" = false → endsWithCI filePath ".htm" = false →
      endsWithCI filePath ".json" = false →
        getCacheHeaders filePath none = [("Cache-Control", "public, max-age=3600")]) ∧
    (∀ cfg pats hdrs, cfg.patterns = some pats →
      findFirstPattern pats filePath = some hdrs →
        getCacheHeaders filePath (some cfg) = mergeHeaders (cfg.dflt.getD []) hdrs) ∧
    (∀ cfg dflt, cfg.dflt = some dflt →
      (cfg.patterns = none ∨
        ∃ pats, cfg.patterns = some pats ∧ findFirstPattern pats filePath = none) →
        getCacheHeaders filePath (some cfg) = dflt) := by
  refine ⟨?_, ?_, ?_, ?_, ?_, ?_⟩
  · intro h
    rcases h with h | h
    · simp [getCacheHeaders, firstMatchingRule, DEFAULT_CACHE_RULES, h]
    · rcases Bool.eq_false_or_eq_true
        (hashedHexBeforeExts filePath ["js", "css", "woff", "woff2", "ttf", "eot"]) with h1 | h1
      · simp [getCacheHeaders, firstMatchingRule, DEFAULT_CACHE_RULES, h, h1]
      · simp [getCacheHeaders, firstMatchingRule, DEFAULT_CACHE_RULES, h, h1]
  · intro h1 h2 h3
    rcases h3 with h3 | h3
    · simp [getCacheHeaders, firstMatchingRule, DEFAULT_CACHE_RULES, h1, h2, h3]
    · simp [getCacheHeaders, firstMatchingRule, DEFAULT_CACHE_RULES, h1, h2, h3]
  · intro h1 h2 h3 h4 h5
    simp [getCacheHeaders, firstMatchingRule, DEFAULT_CACHE_RULES, h1, h2, h3, h4, h5]
  · intro h1 h2 h3 h4 h5
    simp [getCacheHeaders, firstMatchingRule, DEFAULT_CACHE_RULES, h1, h2, h3, h4, h5]
  · intro cfg pats hdrs hpats hfind
    simp [getCacheHeaders, hpats, hfind]
  · intro cfg dflt hdflt hpats
    rcases hpats with hpats | ⟨pats, hpats, hfind⟩
    · simp [getCacheHeaders, hpats, hdflt]
    · simp [getCacheHeaders, hpats, hfind, hdflt]

/-- Witness for C9 (amended): a fingerprinted asset gets the immutable
directive, and a manifest-level default override beats every built-in rule on
the same path. -/
theorem getCacheHeaders_rules_amended_witness :
    getCacheHeaders "assets/main.abcdef1.js" none =
      [("Cache-Control", "public, max-age=31536000, immutable")] ∧
    getCacheHeaders "assets/main.abcdef1.js"
        (some { dflt := some [("Cache-Control", "no-cache")] }) =
      [("Cache-Control", "no-cache")] := by
  constructor
  · exact (getCacheHeaders_rules_amended "assets/main.abcdef1.js").1 (Or.inl (by decide))
  · exact (getCacheHeaders_rules_amended "assets/main.abcdef1.js").2.2.2.2.2
      { dflt := some [("Cache-Control", "no-cache")] } [("Cache-Control", "no-cache")]
      rfl (Or.inl rfl)

end Firecat
